import Mathlib

/-
Verification of the OpenList integration client (`app/openlist_client.py`,
`app/config.py`) of the swiperflix-gateway repository.

The HTTP world is modelled by a scripted environment `Env`: the n-th request to
each endpoint receives a scripted response, and the n-th `authenticate()` call
has a scripted outcome.  The refreshed bearer token only influences request
headers, which the scripted environment abstracts away (responses are indexed
by request count), so the token value itself is not tracked.

Python-specific semantics reproduced here:
  * truthiness of `None` and `""` (both falsy);
  * `str.rstrip("/")` / `str.lstrip("/")` strip ALL trailing/leading slashes;
  * `urllib.parse.quote(seg, safe="")` percent-encodes every UTF-8 byte except
    unreserved ASCII (letters, digits, `-`, `_`, `.`, `~`), uppercase hex;
  * `str.split(sep)` with an explicit separator keeps empty pieces.

httpx semantics the source relies on:
  * `Response.raise_for_status()` raises for every non-2xx status;
  * `Response.is_redirect` is true exactly for 3xx statuses (the presence of a
    `Location` header is checked separately by the source, line 179-181).

Abstractions (noted where relevant): exceptions are collapsed into the `Err`
enumeration (the source raises `RuntimeError` / httpx exceptions); JSON bodies
whose top level is not an object make `data.get(...)` raise `AttributeError`
in Python, which is collapsed into the same error outcome as the generic
"OpenList error" failure.
-/

set_option autoImplicit false

namespace Swiperflix

/-- Python truthiness for an optional string: `None` and `""` are falsy. -/
def truthy : Option String → Bool
  | none => false
  | some s => s != ""

/-- Mirror of `app.config.Settings` (the fields the client reads). -/
structure Settings where
  api_base_url : String
  dir_path : String
  password : Option String
  token : Option String
  username : Option String
  user_password : Option String
  public_base_url : Option String

/-- The guard `self.settings.username and self.settings.user_password`
used at every re-authentication site (Python truthiness). -/
def hasCreds (s : Settings) : Bool :=
  truthy s.username && truthy s.user_password

/-- A small JSON value type: all response shapes the client inspects. -/
inductive Json where
  | null
  | bool (b : Bool)
  | int (n : Int)
  | str (s : String)
  | arr (elems : List Json)
  | obj (fields : List (String × Json))

/-- First-match association lookup, i.e. Python `dict.get` (dict keys are
unique in Python; first match is the faithful reading for a key list). -/
def lookupField (k : String) : List (String × Json) → Option Json
  | [] => none
  | (k', v) :: rest => if k' == k then some v else lookupField k rest

/-- Python `data.get(k)`: `None` (here `none`) when absent or when the value
is not an object (in Python the latter raises `AttributeError`; no claim
depends on that corner, see the header note). -/
def Json.get (j : Json) (k : String) : Option Json :=
  match j with
  | .obj fields => lookupField k fields
  | _ => none

/-- The check `isinstance(data, dict)`. -/
def Json.isObj : Json → Bool
  | .obj _ => true
  | _ => false

/-- The check `data.get("code") == n` (false when `code` is absent or not an
integer, as in Python where `None == n` and `"x" == n` are false). -/
def codeIs (data : Json) (n : Int) : Bool :=
  match data.get "code" with
  | some (.int m) => m == n
  | _ => false

/-! ### Python string helpers used by `build_file_url` / `normalize_entry` -/

/-- Python `s.lstrip("/")`: drop every leading slash. -/
def lstripSlash (s : String) : String :=
  String.mk (s.data.dropWhile (fun c => c == '/'))

/-- Python `s.rstrip("/")`: drop every trailing slash. -/
def rstripSlash (s : String) : String :=
  String.mk ((s.data.reverse.dropWhile (fun c => c == '/')).reverse)

/-- Python `s.startswith("/")`. -/
def beginsWithSlash (s : String) : Bool :=
  match s.data with
  | [] => false
  | c :: _ => c == '/'

/-- Python `s.split(sep)` for a one-character separator: empty pieces kept,
`"".split(sep) == [""]`. -/
def splitOnChar (sep : Char) : List Char → List (List Char)
  | [] => [[]]
  | c :: rest =>
    match splitOnChar sep rest with
    | [] => [[]]
    | piece :: pieces =>
      if c == sep then [] :: piece :: pieces else (c :: piece) :: pieces

/-- Unreserved bytes never quoted by `urllib.parse.quote`:
ASCII letters, digits and `-` `_` `.` `~`. -/
def isUnreservedChar (c : Char) : Bool :=
  let n := c.toNat
  (65 ≤ n && n ≤ 90) || (97 ≤ n && n ≤ 122) || (48 ≤ n && n ≤ 57) ||
    c == '-' || c == '_' || c == '.' || c == '~'

/-- Uppercase hexadecimal digit, as produced by `urllib.parse.quote`. -/
def hexDigitChar (n : Nat) : Char :=
  List.getD ("0123456789ABCDEF".data) n '0'

/-- UTF-8 encoding of one character, as a list of byte values. -/
def utf8Bytes (c : Char) : List Nat :=
  let n := c.toNat
  if n < 128 then [n]
  else if n < 2048 then [192 + n / 64, 128 + n % 64]
  else if n < 65536 then [224 + n / 4096, 128 + (n / 64) % 64, 128 + n % 64]
  else [240 + n / 262144, 128 + (n / 4096) % 64, 128 + (n / 64) % 64, 128 + n % 64]

/-- Quote one character: unreserved ASCII is kept, every other character is
replaced by `%XX` for each byte of its UTF-8 encoding. -/
def quoteChar (c : Char) : List Char :=
  if isUnreservedChar c then [c]
  else (utf8Bytes c).foldr
    (fun b acc => '%' :: hexDigitChar (b / 16) :: hexDigitChar (b % 16) :: acc) []

/-- Python `urllib.parse.quote(s, safe="")` over a character list. -/
def pyQuoteL (l : List Char) : List Char :=
  (l.map quoteChar).flatten

/-- Python `urllib.parse.quote(s, safe="")`. -/
def pyQuote (s : String) : String :=
  String.mk (pyQuoteL s.data)

/-- Python `a or b` for an optional string `a` (falsy: `None`, `""`). -/
def orElseStr (a : Option String) (b : String) : String :=
  match a with
  | some s => if s != "" then s else b
  | none => b

/-- Mirror of `Settings.build_file_url` (`app/config.py` lines 30-35):
base is `public_base_url or api_base_url` with trailing slashes stripped,
the path is slash-prefixed if needed, then each `/`-separated segment of the
slash-stripped path is percent-encoded and rejoined with `/`. -/
def build_file_url (s : Settings) (path : String) : String :=
  let base := rstripSlash (orElseStr s.public_base_url s.api_base_url)
  let path1 := if beginsWithSlash path then path else "/" ++ path
  let segs := splitOnChar '/' (lstripSlash path1).data
  let encoded := String.mk (List.intercalate ['/'] (segs.map pyQuoteL))
  base ++ "/" ++ encoded

/-! ### `normalize_entry` (`app/openlist_client.py` lines 122-147) -/

/-- An OpenList fs entry as accepted by `normalize_entry`: either a bare
name string or a structured object (only the `name` and `modified` fields
are read; a non-string/absent `name` is `none`). -/
inductive FsEntry where
  | str (name : String)
  | obj (name : Option String) (modified : Option String)

/-- The video record dict built by `normalize_entry` (the fields `cover`,
`duration`, `orientation` are the constant `None` in the source and are
omitted here). -/
structure VideoRecord where
  path : String
  source_url : String
  title : String
  created_at : Option String
deriving DecidableEq

/-- Mirror of `OpenListClient.normalize_entry`. -/
def normalize_entry (s : Settings) (entry : FsEntry) : Option VideoRecord :=
  let nameModified : Option String × Option String :=
    match entry with
    | .str n => (some n, none)
    | .obj n m => (n, m)
  match nameModified.1 with
  | none => none
  | some name =>
    if name == "" then none
    else
      let base_path := rstripSlash s.dir_path
      let path := if base_path != "" then base_path ++ "/" ++ name else "/" ++ name
      let source_url := build_file_url s path
      some { path := lstripSlash path
             source_url := source_url
             title := name
             created_at := nameModified.2 }

/-! ### Scripted HTTP environment and observable trace -/

/-- Response of one `POST /api/fs/list` request.  `timeout` models
`httpx.TimeoutException`; `body = none` models a body that fails to parse
as JSON. -/
structure ListHttp where
  timeout : Bool
  status : Nat
  body : Option Json

/-- Response of one `GET /@file/link/path/...` request.  `location` is the
value of the `Location` header (absent = `none`); `contentType` is the
`content-type` header with `""` for absent (the source reads it with
default `""`). -/
structure LinkHttp where
  status : Nat
  location : Option String
  contentType : String
  body : Option Json

/-- Response of one `POST /api/fs/get` request. -/
structure GetHttp where
  status : Nat
  body : Option Json

/-- Scripted environment: the n-th request to each endpoint (counted per
endpoint, starting at 0) receives the scripted response; the n-th
`authenticate()` call succeeds iff `authOk n`. -/
structure Env where
  page : Nat → ListHttp
  link : Nat → LinkHttp
  fsget : Nat → GetHttp
  authOk : Nat → Bool

/-- Observable trace of one client call: the pages requested from
`/api/fs/list` in order, the number of `/@file/link` requests, the number
of `/api/fs/get` requests, and the number of `authenticate()` invocations. -/
structure Trace where
  listCalls : List Nat
  linkCalls : Nat
  getCalls : Nat
  authCalls : Nat
deriving DecidableEq

/-- The empty trace at the start of a client call. -/
def Trace.empty : Trace := ⟨[], 0, 0, 0⟩

/-- Error outcomes (each models a raised exception in the source). -/
inductive Err where
  /-- Models `RuntimeError("No username/password configured for OpenList login")`. -/
  | configError
  /-- Models a raising `authenticate()` call (login rejected or token missing). -/
  | authFailed
  /-- Models `RuntimeError("OpenList /api/fs/list timed out")`. -/
  | timeout
  /-- Models a raising `resp.raise_for_status()` (non-2xx HTTP status). -/
  | httpStatus
  /-- Models a raising `resp.json()` at a call site where that is not caught. -/
  | jsonDecode
  /-- Models `RuntimeError(f"OpenList error: ...")` — the `UpstreamListError`. -/
  | listError
  /-- Models `RuntimeError("OpenList /api/fs/get response not JSON: ...")`. -/
  | getNotJson
  /-- Models `RuntimeError(f"Unexpected OpenList /api/fs/get response: ...")`. -/
  | getUnexpected
  /-- Models `RuntimeError(f"OpenList /api/fs/get did not return download URL:")`. -/
  | resolution
  /-- Model artifact: loop fuel exhausted (claims always supply enough). -/
  | outOfFuel
deriving DecidableEq

/-- Mirror of `OpenListClient.authenticate` (lines 42-65).  The invocation
is counted even when it fails; the guard on username/password raises
`ConfigError` before any network traffic; the login exchange itself
succeeds iff the environment says so. -/
def authenticate (env : Env) (s : Settings) (st : Trace) : Except Err Unit × Trace :=
  let n := st.authCalls
  let st1 : Trace := { st with authCalls := n + 1 }
  if !(hasCreds s) then (.error .configError, st1)
  else if env.authOk n then (.ok (), st1)
  else (.error .authFailed, st1)

/-! ### `fetch_files` (lines 67-120) -/

/-- Body of the inner `fetch_page` (lines 76-92), with a structural fuel
argument that only bounds the source's depth-one `auth_retry` recursion
(fuel 2 suffices: the retry is re-entered with `auth_retry=False`, which
can never recurse again, so the 0-fuel case is unreachable from the
wrapper below).  One `POST /api/fs/list` request; on HTTP success but JSON
`code != 200`: if `code == 401`, re-auth is allowed, and username/password
are configured, call `authenticate()` and retry the same page once with
`auth_retry=False`; otherwise raise. -/
def fetch_page_go (env : Env) (s : Settings) (page : Nat) :
    Nat → Bool → Trace → Except Err Json × Trace
  | 0, _, st => (.error .outOfFuel, st)
  | fuel + 1, auth_retry, st =>
    let r := env.page st.listCalls.length
    let st1 : Trace := { st with listCalls := st.listCalls ++ [page] }
    if r.timeout then (.error .timeout, st1)
    else if !(200 ≤ r.status && r.status ≤ 299) then (.error .httpStatus, st1)
    else
      match r.body with
      | none => (.error .jsonDecode, st1)
      | some data =>
        if codeIs data 200 then (.ok data, st1)
        else if codeIs data 401 && auth_retry && hasCreds s then
          match authenticate env s st1 with
          | (.ok _, st2) => fetch_page_go env s page fuel false st2
          | (.error e, st2) => (.error e, st2)
        else (.error .listError, st1)

/-- Mirror of the inner `fetch_page` (lines 76-92). -/
def fetch_page (env : Env) (s : Settings) (page : Nat) (auth_retry : Bool)
    (st : Trace) : Except Err Json × Trace :=
  fetch_page_go env s page 2 auth_retry st

/-- Normalization of one page response (lines 98-105): `data.get("data") or
[]`, then either a bare entry array, or an object carrying `content` and
optionally `total`.  A falsy `data` (absent, `null`, empty array, empty
object) gives no entries; a non-integer `total` is treated as absent (in
Python a non-integer total would raise on comparison; no claim depends on
that corner). -/
def extractPage (data : Json) : List Json × Option Int :=
  match data.get "data" with
  | some (.arr entries) => (entries, none)
  | some (.obj fields) =>
    if fields.isEmpty then ([], none)
    else
      let entries := match lookupField "content" fields with
        | some (.arr es) => es
        | _ => []
      let total := match lookupField "total" fields with
        | some (.int t) => some t
        | _ => none
      (entries, total)
  | _ => ([], none)

/-- The fixed page size (`per_page`, line 73). -/
def perPage : Nat := 50

/-- The check `total is not None and len(results) >= total` (lines 113-114). -/
def totalReached (total : Option Int) (accLen : Nat) : Bool :=
  match total with
  | some t => decide (t ≤ (accLen : Int))
  | none => false

/-- Mirror of the `while True` pagination loop of `fetch_files`
(lines 94-120), with explicit fuel for the unbounded loop.  When
`all_pages` is false the current page's entries are returned immediately;
otherwise the loop stops when a reported total is reached by the
accumulated results, or when the page is short (fewer entries than
`per_page`, including empty), and advances to the next page otherwise. -/
def fetch_files_loop (env : Env) (s : Settings) (all_pages : Bool) :
    Nat → Nat → List Json → Trace → Except Err (List Json) × Trace
  | 0, _, _, st => (.error .outOfFuel, st)
  | fuel + 1, page, acc, st =>
    match fetch_page env s page true st with
    | (.error e, st1) => (.error e, st1)
    | (.ok data, st1) =>
      let entries := (extractPage data).1
      let total := (extractPage data).2
      let acc1 := acc ++ entries
      if !all_pages then (.ok entries, st1)
      else if totalReached total acc1.length then (.ok acc1, st1)
      else if entries.isEmpty || entries.length < perPage then (.ok acc1, st1)
      else fetch_files_loop env s all_pages fuel (page + 1) acc1 st1

/-- Mirror of `OpenListClient.fetch_files` (lines 67-120): pagination
starts at page 1 with an empty accumulator. -/
def fetch_files (env : Env) (s : Settings) (all_pages : Bool) (fuel : Nat)
    (st : Trace) : Except Err (List Json) × Trace :=
  fetch_files_loop env s all_pages fuel 1 [] st

/-! ### `get_download_url` (lines 157-221) and its API fallback (223-258) -/

/-- httpx `Response.is_redirect`: true exactly for 3xx statuses. -/
def isRedirect (r : LinkHttp) : Bool :=
  300 ≤ r.status && r.status ≤ 399

/-- Lines 178-181 / 198-201: `if resp.is_redirect: location =
resp.headers.get("Location"); if location: return location`.  An absent or
empty `Location` header falls through (empty string is falsy). -/
def redirect_location (r : LinkHttp) : Option String :=
  if isRedirect r then
    match r.location with
    | some l => if l != "" then some l else none
    | none => none
  else none

/-- Line 184: `resp.headers.get("content-type", "").startswith("text/html")`. -/
def isHtmlContentType (ct : String) : Bool :=
  ct.data.take 9 == "text/html".data

/-- Lines 213-216 / 254-257: scan an ordered key list over the inner object
and return the first value that is a non-empty string. -/
def firstStringVal (inner : Json) : List String → Option String
  | [] => none
  | k :: ks =>
    match inner.get k with
    | some (.str v) => if v != "" then some v else firstStringVal inner ks
    | _ => firstStringVal inner ks

/-- Key order of the JSON-envelope step (line 213). -/
def linkKeys : List String := ["raw_url", "url", "download_url", "link", "proxy_url"]

/-- Key order of the API-fallback step (line 254). -/
def apiKeys : List String := ["raw_url", "proxy_url", "url", "download_url", "link"]

/-- Lines 207-218: unwrap the `{code, data}` envelope.  If `data` is a dict:
a non-empty string `data["data"]` is returned; a dict `data["data"]` is
scanned with `linkKeys`.  A top-level non-empty string is returned as is.
`none` means fall through to the API fallback. -/
def envelope_extract (data : Json) : Option String :=
  match data with
  | .obj fields =>
    match lookupField "data" fields with
    | some (.str inner) => if inner != "" then some inner else none
    | some (.obj innerFields) => firstStringVal (.obj innerFields) linkKeys
    | _ => none
  | .str topStr => if topStr != "" then some topStr else none
  | _ => none

/-- Body of the inner `call_link` (lines 168-174), fuelled like
`fetch_page_go` (fuel 2 suffices; the 0-fuel case is unreachable from the
wrapper): one GET of the link endpoint; on HTTP status 401 with re-auth
allowed and credentials configured, `authenticate()` then retry once with
`auth_retry=False`. -/
def call_link_go (env : Env) (s : Settings) :
    Nat → Bool → Trace → Except Err LinkHttp × Trace
  | 0, _, st => (.error .outOfFuel, st)
  | fuel + 1, auth_retry, st =>
    let r := env.link st.linkCalls
    let st1 : Trace := { st with linkCalls := st.linkCalls + 1 }
    if (r.status == 401) && auth_retry && hasCreds s then
      match authenticate env s st1 with
      | (.ok _, st2) => call_link_go env s fuel false st2
      | (.error e, st2) => (.error e, st2)
    else (.ok r, st1)

/-- Mirror of the inner `call_link` (lines 168-174). -/
def call_link (env : Env) (s : Settings) (auth_retry : Bool) (st : Trace) :
    Except Err LinkHttp × Trace :=
  call_link_go env s 2 auth_retry st

/-- Body of the inner `call_get` (lines 229-235), fuelled like
`fetch_page_go`: one POST of `/api/fs/get`, same once-only 401-status
re-auth pattern. -/
def call_get_go (env : Env) (s : Settings) :
    Nat → Bool → Trace → Except Err GetHttp × Trace
  | 0, _, st => (.error .outOfFuel, st)
  | fuel + 1, auth_retry, st =>
    let r := env.fsget st.getCalls
    let st1 : Trace := { st with getCalls := st.getCalls + 1 }
    if (r.status == 401) && auth_retry && hasCreds s then
      match authenticate env s st1 with
      | (.ok _, st2) => call_get_go env s fuel false st2
      | (.error e, st2) => (.error e, st2)
    else (.ok r, st1)

/-- Mirror of the inner `call_get` (lines 229-235). -/
def call_get (env : Env) (s : Settings) (auth_retry : Bool) (st : Trace) :
    Except Err GetHttp × Trace :=
  call_get_go env s 2 auth_retry st

/-- Lines 249-258: decode the `/api/fs/get` response body after the 401
handling — non-dict bodies are `Unexpected`, then `data["data"]` must be a
dict containing one of `apiKeys` as a non-empty string, else the
"did not return download URL" error. -/
def api_finish (data : Json) (st : Trace) : Except Err String × Trace :=
  if !data.isObj then (.error .getUnexpected, st)
  else
    match data.get "data" with
    | some (.obj innerFields) =>
      match firstStringVal (.obj innerFields) apiKeys with
      | some u => (.ok u, st)
      | none => (.error .resolution, st)
    | _ => (.error .resolution, st)

/-- Mirror of `OpenListClient._get_download_url_via_api` (lines 223-258).
The body must parse as JSON (else `getNotJson`); a dict body with
`code == 401` triggers one `authenticate()` plus one `call_get` retry whose
body is decoded by a second, uncaught `resp.json()` (line 247). -/
def get_download_url_via_api (env : Env) (s : Settings) (st : Trace) :
    Except Err String × Trace :=
  match call_get env s true st with
  | (.error e, st1) => (.error e, st1)
  | (.ok resp, st1) =>
    match resp.body with
    | none => (.error .getNotJson, st1)
    | some data =>
      if data.isObj && codeIs data 401 && hasCreds s then
        match authenticate env s st1 with
        | (.error e, st2) => (.error e, st2)
        | (.ok _, st2) =>
          match call_get env s false st2 with
          | (.error e, st3) => (.error e, st3)
          | (.ok resp2, st3) =>
            match resp2.body with
            | none => (.error .jsonDecode, st3)
            | some data2 => api_finish data2 st3
      else api_finish data st1

/-- Lines 207-221: envelope extraction with fallback to the API resolver. -/
def envelope_or_api (env : Env) (s : Settings) (data : Json) (st : Trace) :
    Except Err String × Trace :=
  match envelope_extract data with
  | some u => (.ok u, st)
  | none => get_download_url_via_api env s st

/-- Mirror of `OpenListClient.get_download_url` (lines 157-221): redirect
`Location` first; an HTML content type or a non-JSON body falls through to
the API fallback; a dict body with `code == 401` triggers one
`authenticate()` plus one `call_link` retry (whose response gets the
redirect check and JSON decode again, but not the content-type check);
then the `{code, data}` envelope is unwrapped. -/
def get_download_url (env : Env) (s : Settings) (st : Trace) :
    Except Err String × Trace :=
  match call_link env s true st with
  | (.error e, st1) => (.error e, st1)
  | (.ok resp, st1) =>
    match redirect_location resp with
    | some l => (.ok l, st1)
    | none =>
      if isHtmlContentType resp.contentType then get_download_url_via_api env s st1
      else
        match resp.body with
        | none => get_download_url_via_api env s st1
        | some data =>
          if data.isObj && codeIs data 401 && hasCreds s then
            match authenticate env s st1 with
            | (.error e, st2) => (.error e, st2)
            | (.ok _, st2) =>
              match call_link env s false st2 with
              | (.error e, st3) => (.error e, st3)
              | (.ok resp2, st3) =>
                match redirect_location resp2 with
                | some l => (.ok l, st3)
                | none =>
                  match resp2.body with
                  | none => get_download_url_via_api env s st3
                  | some data2 => envelope_or_api env s data2 st3
          else envelope_or_api env s data st1

/-! ### Concrete fixtures used by witnesses and counterexamples -/

/-- A settings value with token and username/password configured. -/
def sW : Settings :=
  { api_base_url := "http://localhost:5244", dir_path := "/movies",
    password := none, token := some "tok", username := some "u",
    user_password := some "p", public_base_url := some "http://pb" }

/-- The JSON body of a successful `/api/fs/list` response carrying
`content` and optionally `total`. -/
def listOkBody (entries : List Json) (total : Option Int) : Json :=
  .obj [("code", .int 200),
        ("data", .obj (("content", .arr entries) ::
          (match total with | some t => [("total", Json.int t)] | none => [])))]

/-- A successful `/api/fs/list` response carrying `content` and
optionally `total`. -/
def mkListOk (entries : List Json) (total : Option Int) : ListHttp :=
  { timeout := false, status := 200, body := some (listOkBody entries total) }

/-- A `/api/fs/list` response with HTTP 200 but JSON `code = 401`. -/
def listResp401 : ListHttp :=
  { timeout := false, status := 200, body := some (.obj [("code", .int 401)]) }

/-- Fifty distinct entries (first page fixture). -/
def pageEntries50a : List Json :=
  (List.range 50).map (fun i => Json.str ("a" ++ toString i))

/-- Fifty distinct entries (second page fixture). -/
def pageEntries50b : List Json :=
  (List.range 50).map (fun i => Json.str ("b" ++ toString i))

/-- Twenty distinct entries (short third page fixture). -/
def pageEntries20 : List Json :=
  (List.range 20).map (fun i => Json.str ("c" ++ toString i))

/-- Fifty distinct entries (third page fixture). -/
def pageEntries50c : List Json :=
  (List.range 50).map (fun i => Json.str ("e" ++ toString i))

/-- Ten distinct entries (short fourth page fixture). -/
def pageEntries10 : List Json :=
  (List.range 10).map (fun i => Json.str ("d" ++ toString i))

/-- An inert link response (HTTP 200, empty body). -/
def linkNone : LinkHttp :=
  { status := 200, location := none, contentType := "", body := none }

/-- An inert `/api/fs/get` response. -/
def getNone : GetHttp := { status := 200, body := none }

/-- A direct-link response with an HTML content type and a non-JSON body. -/
def linkHtml : LinkHttp :=
  { status := 200, location := none,
    contentType := "text/html; charset=utf-8", body := none }

/-- The successful `/api/fs/get` envelope fields (`code 200`,
`data.raw_url = http://raw`). -/
def rawFields : List (String × Json) :=
  [("code", .int 200), ("data", .obj [("raw_url", .str "http://raw")])]

/-- A `/api/fs/get` response resolving to `raw_url = http://raw`. -/
def getRaw : GetHttp := { status := 200, body := some (.obj rawFields) }

/-- An inner `data` object whose first hit in `linkKeys` order is `url`
(`raw_url` present but empty, hence skipped). -/
def envInner : List (String × Json) :=
  [("raw_url", .str ""), ("proxy_url", .str "http://p"), ("url", .str "http://u")]

/-- A direct-link JSON envelope response carrying `envInner` as `data`. -/
def linkEnvelope : LinkHttp :=
  { status := 200, location := none, contentType := "application/json",
    body := some (.obj [("code", .int 200), ("data", .obj envInner)]) }

/-! ### C5 -/

/-- C5: whenever the direct-link endpoint responds with a 3xx redirect
carrying a (non-empty) `Location` header, `get_download_url` returns that
`Location` value unmodified — the response body (arbitrary here) is never
parsed as JSON and no further strategy runs (the trace shows exactly one
link request, no `/api/fs/get` request and no `authenticate()` call). -/
theorem redirect_returns_location_unmodified
    (env : Env) (s : Settings) (st : Trace) (l : String)
    (h3a : 300 ≤ (env.link st.linkCalls).status)
    (h3b : (env.link st.linkCalls).status ≤ 399)
    (hl : (env.link st.linkCalls).location = some l)
    (hne : l ≠ "") :
    get_download_url env s st =
      (.ok l, { st with linkCalls := st.linkCalls + 1 }) := by
  have h401 : ((env.link st.linkCalls).status == 401) = false := by
    simp only [beq_eq_false_iff_ne, ne_eq]
    omega
  simp [get_download_url, call_link, call_link_go, h401,
    redirect_location, isRedirect, h3a, h3b, hl, hne]

/-- Witness for C5 at a concrete environment: a 302 with
`Location http://dest`. -/
theorem redirect_returns_location_unmodified_witness :
    get_download_url
      { page := fun _ => listResp401,
        link := fun _ => { status := 302, location := some "http://dest",
                           contentType := "text/html", body := none },
        fsget := fun _ => getNone, authOk := fun _ => true } sW Trace.empty =
      (.ok "http://dest", ⟨[], 1, 0, 0⟩) :=
  redirect_returns_location_unmodified _ sW Trace.empty "http://dest"
    (by decide) (by decide) rfl (by decide)

/-! ### C6 -/

/-- C6: a direct-link response with an HTML content type, or one whose body
fails to parse as JSON, is not a hard failure: `get_download_url` falls
through to the `/api/fs/get` fallback and, when that response carries a
non-empty `raw_url` string, returns it.  (The direct-link response is
assumed to be a plain HTTP 200, i.e. not itself a redirect or an
authorization failure.) -/
theorem html_or_unparseable_falls_through_to_api
    (env : Env) (s : Settings) (st : Trace) (u : String)
    (fields inner : List (String × Json))
    (hls : (env.link st.linkCalls).status = 200)
    (hgs : (env.fsget st.getCalls).status = 200)
    (hgb : (env.fsget st.getCalls).body = some (.obj fields))
    (hcode : codeIs (.obj fields) 401 = false)
    (hdata : lookupField "data" fields = some (.obj inner))
    (hraw : lookupField "raw_url" inner = some (.str u))
    (hu : u ≠ "") :
    (isHtmlContentType (env.link st.linkCalls).contentType = true →
      get_download_url env s st =
        (.ok u, { st with linkCalls := st.linkCalls + 1,
                          getCalls := st.getCalls + 1 })) ∧
    ((env.link st.linkCalls).body = none →
      get_download_url env s st =
        (.ok u, { st with linkCalls := st.linkCalls + 1,
                          getCalls := st.getCalls + 1 })) := by
  have hapi : ∀ st' : Trace, st'.getCalls = st.getCalls →
      get_download_url_via_api env s st' =
        (.ok u, { st' with getCalls := st'.getCalls + 1 }) := by
    intro st' hst
    simp [get_download_url_via_api, call_get, call_get_go, hst, hgs, hgb,
      hcode, api_finish, Json.isObj, Json.get, hdata, firstStringVal,
      apiKeys, hraw, hu]
  constructor
  · intro hct
    simp [get_download_url, call_link, call_link_go, hls,
      redirect_location, isRedirect, hct, hapi]
  · intro hbody
    by_cases hct : isHtmlContentType (env.link st.linkCalls).contentType
    · simp [get_download_url, call_link, call_link_go, hls,
        redirect_location, isRedirect, hct, hapi]
    · simp [get_download_url, call_link, call_link_go, hls,
        redirect_location, isRedirect, hct, hbody, hapi]

/-- Witness for C6 at a concrete environment: the direct-link endpoint
returns `text/html` (and, for the second conjunct, a non-JSON body), the
fallback returns `raw_url = http://raw`. -/
theorem html_or_unparseable_falls_through_to_api_witness :
    get_download_url
      { page := fun _ => listResp401, link := fun _ => linkHtml,
        fsget := fun _ => getRaw, authOk := fun _ => true } sW Trace.empty =
      (.ok "http://raw", ⟨[], 1, 1, 0⟩) :=
  (html_or_unparseable_falls_through_to_api _ sW Trace.empty "http://raw"
    rawFields [("raw_url", .str "http://raw")]
    rfl rfl rfl (by decide) rfl rfl (by decide)).1 (by decide)

/-! ### C7 -/

/-- C7: shape of the two key searches.  (i) The key orders are literally
`raw_url, url, download_url, link, proxy_url` for the JSON-envelope step
and `raw_url, proxy_url, url, download_url, link` for the API-fallback
step.  (ii) In the envelope step a non-empty string `data` is returned as
is.  (iii) An object `data` is scanned by `firstStringVal` over `linkKeys`
(first present non-empty string value wins; misses fall through to the API
fallback).  (iv) In the API-fallback step the inner object is scanned over
`apiKeys` (misses are the terminal resolution error).  (v) The two orders
genuinely differ: on `{proxy_url: P, url: U}` the envelope step picks `U`,
the fallback step picks `P`. -/
theorem key_search_orders
    (env : Env) (s : Settings) (st : Trace) :
    (linkKeys = ["raw_url", "url", "download_url", "link", "proxy_url"] ∧
     apiKeys = ["raw_url", "proxy_url", "url", "download_url", "link"]) ∧
    (∀ (fields : List (String × Json)) (d : String),
      (env.link st.linkCalls).status = 200 →
      isHtmlContentType (env.link st.linkCalls).contentType = false →
      (env.link st.linkCalls).body = some (.obj fields) →
      codeIs (.obj fields) 401 = false →
      lookupField "data" fields = some (.str d) → d ≠ "" →
      get_download_url env s st =
        (.ok d, { st with linkCalls := st.linkCalls + 1 })) ∧
    (∀ (fields inner : List (String × Json)),
      (env.link st.linkCalls).status = 200 →
      isHtmlContentType (env.link st.linkCalls).contentType = false →
      (env.link st.linkCalls).body = some (.obj fields) →
      codeIs (.obj fields) 401 = false →
      lookupField "data" fields = some (.obj inner) →
      get_download_url env s st =
        (match firstStringVal (.obj inner) linkKeys with
         | some u => (.ok u, { st with linkCalls := st.linkCalls + 1 })
         | none => get_download_url_via_api env s
             { st with linkCalls := st.linkCalls + 1 })) ∧
    (∀ (fields inner : List (String × Json)),
      (env.fsget st.getCalls).status = 200 →
      (env.fsget st.getCalls).body = some (.obj fields) →
      codeIs (.obj fields) 401 = false →
      lookupField "data" fields = some (.obj inner) →
      get_download_url_via_api env s st =
        (match firstStringVal (.obj inner) apiKeys with
         | some u => (.ok u, { st with getCalls := st.getCalls + 1 })
         | none => (.error .resolution,
             { st with getCalls := st.getCalls + 1 }))) ∧
    (firstStringVal (.obj [("proxy_url", .str "P"), ("url", .str "U")])
        linkKeys = some "U" ∧
     firstStringVal (.obj [("proxy_url", .str "P"), ("url", .str "U")])
        apiKeys = some "P") := by
  refine ⟨⟨rfl, rfl⟩, ?_, ?_, ?_, by decide, by decide⟩
  · intro fields d hls hct hb hcode hdata hd
    simp [get_download_url, call_link, call_link_go, hls,
      redirect_location, isRedirect, hct, hb, hcode, Json.isObj,
      envelope_or_api, envelope_extract, hdata, hd]
  · intro fields inner hls hct hb hcode hdata
    cases hfs : firstStringVal (.obj inner) linkKeys with
    | some u =>
      simp [get_download_url, call_link, call_link_go, hls,
        redirect_location, isRedirect, hct, hb, hcode, Json.isObj,
        envelope_or_api, envelope_extract, hdata, hfs]
    | none =>
      simp [get_download_url, call_link, call_link_go, hls,
        redirect_location, isRedirect, hct, hb, hcode, Json.isObj,
        envelope_or_api, envelope_extract, hdata, hfs]
  · intro fields inner hgs hgb hcode hdata
    cases hfs : firstStringVal (.obj inner) apiKeys with
    | some u =>
      simp [get_download_url_via_api, call_get, call_get_go, hgs, hgb,
        hcode, Json.isObj, api_finish, Json.get, hdata, hfs]
    | none =>
      simp [get_download_url_via_api, call_get, call_get_go, hgs, hgb,
        hcode, Json.isObj, api_finish, Json.get, hdata, hfs]

/-- Witness for C7: the envelope step applied to a dict `data` whose first
hit in `linkKeys` order is `url` (because `raw_url` is an empty string,
which is skipped). -/
theorem key_search_orders_witness :
    get_download_url
      { page := fun _ => listResp401,
        link := fun _ => linkEnvelope, fsget := fun _ => getNone,
        authOk := fun _ => true } sW Trace.empty =
      (.ok "http://u", ⟨[], 1, 0, 0⟩) := by
  have h := ((key_search_orders
      { page := fun _ => listResp401, link := fun _ => linkEnvelope,
        fsget := fun _ => getNone, authOk := fun _ => true } sW
      Trace.empty).2.2.1)
    [("code", .int 200), ("data", .obj envInner)] envInner
    rfl (by decide) rfl (by decide) rfl
  simpa using h

/-! ### C1 -/

/-- A body whose `code` is 401 does not have `code` 200. -/
theorem codeIs_401_not_200 (d : Json) (h : codeIs d 401 = true) :
    codeIs d 200 = false := by
  unfold codeIs at h ⊢
  revert h
  cases d.get "code" with
  | none => simp
  | some v => cases v <;> simp <;> omega

/-- C1: a listing request answered with HTTP success but JSON `code = 401`,
with username/password configured and a successful login exchange, causes
exactly one `authenticate()` call and exactly one retry of the same page
(the trace gains `[page, page]` and one auth call).  If the retry is
answered with `code = 401` again, the call surfaces the listing error with
no further request and no further `authenticate()` call; the same terminal
outcome is what `fetch_files` reports for its first page. -/
theorem list_auth_retry_exactly_once
    (env : Env) (s : Settings) (page : Nat) (st : Trace) (d0 d1 : Json)
    (hc : hasCreds s = true)
    (ht0 : (env.page st.listCalls.length).timeout = false)
    (hs0 : (env.page st.listCalls.length).status = 200)
    (hb0 : (env.page st.listCalls.length).body = some d0)
    (h401 : codeIs d0 401 = true)
    (hauth : env.authOk st.authCalls = true)
    (ht1 : (env.page (st.listCalls.length + 1)).timeout = false)
    (hs1 : (env.page (st.listCalls.length + 1)).status = 200)
    (hb1 : (env.page (st.listCalls.length + 1)).body = some d1) :
    (codeIs d1 200 = true →
      fetch_page env s page true st =
        (.ok d1, { st with listCalls := st.listCalls ++ [page, page],
                           authCalls := st.authCalls + 1 })) ∧
    (codeIs d1 401 = true →
      fetch_page env s page true st =
        (.error .listError,
         { st with listCalls := st.listCalls ++ [page, page],
                   authCalls := st.authCalls + 1 })) ∧
    (codeIs d1 401 = true → page = 1 → ∀ (all_pages : Bool) (fuel : Nat),
      fetch_files env s all_pages (fuel + 1) st =
        (.error .listError,
         { st with listCalls := st.listCalls ++ [1, 1],
                   authCalls := st.authCalls + 1 })) := by
  have h200 : codeIs d0 200 = false := codeIs_401_not_200 d0 h401
  have main : fetch_page env s page true st =
      ((if codeIs d1 200 then .ok d1 else .error .listError),
       { st with listCalls := st.listCalls ++ [page, page],
                 authCalls := st.authCalls + 1 }) := by
    by_cases hd1 : codeIs d1 200 = true
    · simp [fetch_page, fetch_page_go, ht0, hs0, hb0, h200, h401, hc,
        authenticate, hauth, ht1, hs1, hb1, hd1]
    · simp only [Bool.not_eq_true] at hd1
      simp [fetch_page, fetch_page_go, ht0, hs0, hb0, h200, h401, hc,
        authenticate, hauth, ht1, hs1, hb1, hd1]
  refine ⟨?_, ?_, ?_⟩
  · intro hd1; rw [main, hd1]; rfl
  · intro hd1
    rw [main, codeIs_401_not_200 d1 hd1]; rfl
  · intro hd1 hp all_pages fuel
    subst hp
    have hmain := main
    rw [codeIs_401_not_200 d1 hd1] at hmain
    simp [fetch_files, fetch_files_loop, hmain]

/-- Witness for C1: the second conjunct at a concrete environment that
answers `code = 401` twice; one auth call, one retry, terminal error. -/
theorem list_auth_retry_exactly_once_witness :
    fetch_page
      { page := fun _ => listResp401, link := fun _ => linkNone,
        fsget := fun _ => getNone, authOk := fun _ => true } sW 1 true
      Trace.empty =
      (.error .listError, ⟨[1, 1], 0, 0, 1⟩) :=
  (list_auth_retry_exactly_once
    { page := fun _ => listResp401, link := fun _ => linkNone,
      fsget := fun _ => getNone, authOk := fun _ => true } sW 1 Trace.empty
    (.obj [("code", .int 401)]) (.obj [("code", .int 401)])
    (by decide) rfl rfl rfl (by decide) rfl rfl rfl rfl).2.1 (by decide)

/-! ### C9 -/

/-- Without the re-auth budget, one `fetch_page` attempt issues exactly one
listing request for its page, whatever the response. -/
theorem fetch_page_go_false_listCalls (env : Env) (s : Settings)
    (page fuel : Nat) (st : Trace) :
    (fetch_page_go env s page (fuel + 1) false st).2.listCalls =
      st.listCalls ++ [page] := by
  unfold fetch_page_go
  dsimp only
  split
  · rfl
  · split
    · rfl
    · split
      · rfl
      · split
        · rfl
        · simp

/-- The function `authenticate` always adds exactly one auth call to the trace and
touches nothing else. -/
theorem authenticate_snd (env : Env) (s : Settings) (st : Trace) :
    (authenticate env s st).2 = { st with authCalls := st.authCalls + 1 } := by
  unfold authenticate
  dsimp only
  split
  · rfl
  · split <;> rfl

/-- A full `fetch_page` call (re-auth allowed) issues one listing request,
or two requests of the same page. -/
theorem fetch_page_listCalls (env : Env) (s : Settings) (page : Nat)
    (st : Trace) :
    (fetch_page env s page true st).2.listCalls = st.listCalls ++ [page] ∨
    (fetch_page env s page true st).2.listCalls = st.listCalls ++ [page, page] := by
  unfold fetch_page fetch_page_go
  dsimp only
  split
  · exact Or.inl rfl
  · split
    · exact Or.inl rfl
    · split
      · exact Or.inl rfl
      · split
        · exact Or.inl rfl
        · split
          · split
            · rename_i u st2 heq
              right
              have hsnd := authenticate_snd env s
                { st with listCalls := st.listCalls ++ [page] }
              rw [heq] at hsnd
              simp only at hsnd
              rw [fetch_page_go_false_listCalls env s page 0 st2, hsnd]
              simp
            · rename_i e st2 heq
              left
              have hsnd := authenticate_snd env s
                { st with listCalls := st.listCalls ++ [page] }
              rw [heq] at hsnd
              simp only at hsnd
              rw [hsnd]
          · exact Or.inl rfl

/-- C9: with `all_pages` false (the source default), `fetch_files` returns
exactly the first page's entries — whatever total the service reports and
however full the page is, the loop never advances — and it issues exactly
one listing request of page 1, plus at most one authorization retry of
that same request. -/
theorem single_page_fetch (env : Env) (s : Settings) (fuel : Nat) (st : Trace) :
    (fetch_files env s false (fuel + 1) st =
      (match fetch_page env s 1 true st with
       | (.ok d, st1) => (.ok (extractPage d).1, st1)
       | (.error e, st1) => (.error e, st1))) ∧
    ((fetch_files env s false (fuel + 1) Trace.empty).2.listCalls = [1] ∨
     (fetch_files env s false (fuel + 1) Trace.empty).2.listCalls = [1, 1]) := by
  have main : ∀ st' : Trace, fetch_files env s false (fuel + 1) st' =
      (match fetch_page env s 1 true st' with
       | (.ok d, st1) => (.ok (extractPage d).1, st1)
       | (.error e, st1) => (.error e, st1)) := by
    intro st'
    unfold fetch_files fetch_files_loop
    cases hf : fetch_page env s 1 true st' with
    | mk r st1 => cases r <;> simp
  refine ⟨main st, ?_⟩
  rw [main Trace.empty]
  have h := fetch_page_listCalls env s 1 Trace.empty
  cases hf : fetch_page env s 1 true Trace.empty with
  | mk r st1 =>
    rw [hf] at h
    cases r <;> simpa [Trace.empty] using h

/-! ### C3 and C4: pagination -/

/-- Modelled from the spec wording (the claimed precedence), for comparison
with the code: (1) if the service reported a running total and the
accumulated count reached it, stop; (2) otherwise, if the current page
returned fewer entries than the page size (including zero), stop;
(3) otherwise advance. -/
def specStop (total : Option Int) (accLen entriesLen : Nat) : Bool :=
  match total with
  | some t => if t ≤ (accLen : Int) then true else decide (entriesLen < perPage)
  | none => decide (entriesLen < perPage)

/-- The code's stop test (reported-total check, then short-page check with
the separate emptiness test) equals the claimed precedence `specStop`. -/
theorem code_stop_eq_specStop {α : Type} (total : Option Int)
    (entries : List Json) (accLen : Nat) (x y : α) :
    (if totalReached total accLen then x
     else if entries.isEmpty || entries.length < perPage then x else y) =
      (if specStop total accLen entries.length then x else y) := by
  cases total with
  | none =>
    cases entries with
    | nil => simp [totalReached, specStop, perPage]
    | cons a l => simp [totalReached, specStop]
  | some t =>
    by_cases hr : t ≤ (accLen : Int)
    · simp [totalReached, specStop, hr]
    · cases entries with
      | nil => simp [totalReached, specStop, hr, perPage]
      | cons a l => simp [totalReached, specStop, hr]

/-- One iteration of the pagination loop on a successful page response:
append the entries, then stop or advance exactly by the `specStop`
precedence. -/
theorem fetch_files_loop_step (env : Env) (s : Settings) (fuel page : Nat)
    (acc : List Json) (st st' : Trace) (d : Json)
    (hf : fetch_page env s page true st = (.ok d, st')) :
    fetch_files_loop env s true (fuel + 1) page acc st =
      (if specStop (extractPage d).2 (acc ++ (extractPage d).1).length
            (extractPage d).1.length
       then (.ok (acc ++ (extractPage d).1), st')
       else fetch_files_loop env s true fuel (page + 1)
              (acc ++ (extractPage d).1) st') := by
  conv =>
    lhs
    rw [fetch_files_loop]
  rw [hf]
  dsimp only
  rw [code_stop_eq_specStop]
  simp

/-- A page request answered by a well-formed successful listing response
returns its body and appends exactly one request for this page. -/
theorem fetch_page_ok (env : Env) (s : Settings) (page : Nat) (st : Trace)
    (entries : List Json) (total : Option Int)
    (h : env.page st.listCalls.length = mkListOk entries total) :
    fetch_page env s page true st =
      (.ok (listOkBody entries total),
       { st with listCalls := st.listCalls ++ [page] }) := by
  have hcode : codeIs (listOkBody entries total) 200 = true := by
    simp [codeIs, listOkBody, Json.get, lookupField]
  simp [fetch_page, fetch_page_go, h, mkListOk, hcode]

/-- Extraction of a well-formed successful listing body gives back the
entries and the reported total. -/
theorem extractPage_listOkBody (entries : List Json) (total : Option Int) :
    extractPage (listOkBody entries total) = (entries, total) := by
  cases total <;> simp [extractPage, listOkBody, Json.get, lookupField]

/-- C3: the pagination loop terminates by the claimed precedence — on each
successful page response it stops iff the reported total has been reached
by the accumulated entries, or else the page was short (fewer than 50
entries, including zero), and advances to the next page otherwise
(first conjunct, with the precedence spelled out by `specStop`).  In
particular, with a reported total of 120 and pages of 50, 50 and 20
entries, it stops after the third page with all 120 entries (second
conjunct). -/
theorem pagination_stop_precedence (env : Env) (s : Settings) :
    (∀ (fuel page : Nat) (acc : List Json) (st st' : Trace) (d : Json),
      fetch_page env s page true st = (.ok d, st') →
      fetch_files_loop env s true (fuel + 1) page acc st =
        (if specStop (extractPage d).2 (acc ++ (extractPage d).1).length
              (extractPage d).1.length
         then (.ok (acc ++ (extractPage d).1), st')
         else fetch_files_loop env s true fuel (page + 1)
                (acc ++ (extractPage d).1) st')) ∧
    (∀ (f : Nat) (e1 e2 e3 : List Json),
      e1.length = 50 → e2.length = 50 → e3.length = 20 →
      env.page 0 = mkListOk e1 (some 120) →
      env.page 1 = mkListOk e2 (some 120) →
      env.page 2 = mkListOk e3 (some 120) →
      fetch_files env s true (f + 3) Trace.empty =
        (.ok (e1 ++ e2 ++ e3), ⟨[1, 2, 3], 0, 0, 0⟩)) := by
  refine ⟨fun fuel page acc st st' d hf =>
    fetch_files_loop_step env s fuel page acc st st' d hf, ?_⟩
  intro f e1 e2 e3 h1 h2 h3 h0e h1e h2e
  have hp1 := fetch_page_ok env s 1 Trace.empty e1 (some 120)
    (by simpa [Trace.empty] using h0e)
  rw [show f + 3 = (f + 2) + 1 by omega]
  unfold fetch_files
  rw [fetch_files_loop_step env s (f + 2) 1 [] Trace.empty _ _ hp1,
    extractPage_listOkBody]
  dsimp only
  have hstop1 : specStop (some 120) ([] ++ e1).length e1.length = false := by
    simp [specStop, h1, perPage]
  rw [hstop1]
  simp only [Bool.false_eq_true, if_false]
  rw [show f + 2 = (f + 1) + 1 by omega]
  have hp2 := fetch_page_ok env s 2
    ({ Trace.empty with listCalls := Trace.empty.listCalls ++ [1] }) e2 (some 120)
    (by simpa [Trace.empty] using h1e)
  rw [fetch_files_loop_step env s (f + 1) 2 ([] ++ e1) _ _ _ hp2,
    extractPage_listOkBody]
  dsimp only
  have hstop2 : specStop (some 120) (([] ++ e1) ++ e2).length e2.length = false := by
    simp [specStop, h1, h2, perPage]
  rw [hstop2]
  simp only [Bool.false_eq_true, if_false]
  have hp3 := fetch_page_ok env s 3
    ({ { Trace.empty with listCalls := Trace.empty.listCalls ++ [1] } with
        listCalls := ({ Trace.empty with
          listCalls := Trace.empty.listCalls ++ [1] } : Trace).listCalls ++ [2] })
    e3 (some 120) (by simpa [Trace.empty] using h2e)
  rw [fetch_files_loop_step env s f 3 (([] ++ e1) ++ e2) _ _ _ hp3,
    extractPage_listOkBody]
  dsimp only
  have hstop3 : specStop (some 120) ((([] ++ e1) ++ e2) ++ e3).length e3.length = true := by
    simp [specStop, h1, h2, h3]
  rw [hstop3]
  simp [Trace.empty]

/-- Witness for C3 at concrete entries (the page lists are distinct
string entries, so the concatenation check is meaningful). -/
theorem pagination_stop_precedence_witness :
    fetch_files
      { page := fun n =>
          if n = 0 then mkListOk pageEntries50a (some 120)
          else if n = 1 then mkListOk pageEntries50b (some 120)
          else mkListOk pageEntries20 (some 120),
        link := fun _ => linkNone, fsget := fun _ => getNone,
        authOk := fun _ => true } sW true 3 Trace.empty =
      (.ok (pageEntries50a ++ pageEntries50b ++ pageEntries20),
       ⟨[1, 2, 3], 0, 0, 0⟩) :=
  (pagination_stop_precedence
    { page := fun n =>
        if n = 0 then mkListOk pageEntries50a (some 120)
        else if n = 1 then mkListOk pageEntries50b (some 120)
        else mkListOk pageEntries20 (some 120),
      link := fun _ => linkNone, fsget := fun _ => getNone,
      authOk := fun _ => true } sW).2 0 pageEntries50a pageEntries50b
    pageEntries20 (by decide) (by decide) (by decide) rfl rfl rfl

/-! ### C4 -/

/-- One unrolling of the pagination loop against a well-formed successful
listing response. -/
theorem loop_ok_step (env : Env) (s : Settings) (fuel page : Nat)
    (acc : List Json) (st : Trace) (entries : List Json) (total : Option Int)
    (h : env.page st.listCalls.length = mkListOk entries total) :
    fetch_files_loop env s true (fuel + 1) page acc st =
      (if specStop total (acc ++ entries).length entries.length
       then (.ok (acc ++ entries),
             { st with listCalls := st.listCalls ++ [page] })
       else fetch_files_loop env s true fuel (page + 1) (acc ++ entries)
              { st with listCalls := st.listCalls ++ [page] }) := by
  rw [fetch_files_loop_step env s fuel page acc st _ _
    (fetch_page_ok env s page st entries total h), extractPage_listOkBody]

/-- C4: a directory split into pages of sizes 50, 50, 50, 10 with no
reported total makes `fetch_files` (all pages) return exactly the 160
entries concatenated in increasing page-number order, with exactly 4 page
requests issued in that order. -/
theorem four_pages_no_total (env : Env) (s : Settings) :
    ∀ (f : Nat) (e1 e2 e3 e4 : List Json),
      e1.length = 50 → e2.length = 50 → e3.length = 50 → e4.length = 10 →
      env.page 0 = mkListOk e1 none →
      env.page 1 = mkListOk e2 none →
      env.page 2 = mkListOk e3 none →
      env.page 3 = mkListOk e4 none →
      fetch_files env s true (f + 4) Trace.empty =
        (.ok (e1 ++ e2 ++ e3 ++ e4), ⟨[1, 2, 3, 4], 0, 0, 0⟩) ∧
      (e1 ++ e2 ++ e3 ++ e4).length = 160 := by
  intro f e1 e2 e3 e4 h1 h2 h3 h4 h0e h1e h2e h3e
  refine ⟨?_, by simp [h1, h2, h3, h4]⟩
  unfold fetch_files
  rw [show f + 4 = (f + 3) + 1 by omega,
    loop_ok_step env s (f + 3) 1 [] Trace.empty e1 none
      (by simpa [Trace.empty] using h0e)]
  have hstop1 : specStop none ([] ++ e1).length e1.length = false := by
    simp [specStop, h1, perPage]
  rw [hstop1]
  simp only [Bool.false_eq_true, if_false]
  rw [show f + 3 = (f + 2) + 1 by omega,
    loop_ok_step env s (f + 2) 2 ([] ++ e1) _ e2 none
      (by simpa [Trace.empty] using h1e)]
  have hstop2 : specStop none (([] ++ e1) ++ e2).length e2.length = false := by
    simp [specStop, h2, perPage]
  rw [hstop2]
  simp only [Bool.false_eq_true, if_false]
  rw [show f + 2 = (f + 1) + 1 by omega,
    loop_ok_step env s (f + 1) 3 (([] ++ e1) ++ e2) _ e3 none
      (by simpa [Trace.empty] using h2e)]
  have hstop3 : specStop none ((([] ++ e1) ++ e2) ++ e3).length e3.length = false := by
    simp [specStop, h3, perPage]
  rw [hstop3]
  simp only [Bool.false_eq_true, if_false]
  rw [show f + 1 = f + 0 + 1 by omega,
    loop_ok_step env s (f + 0) 4 ((([] ++ e1) ++ e2) ++ e3) _ e4 none
      (by simpa [Trace.empty] using h3e)]
  have hstop4 : specStop none (((([] ++ e1) ++ e2) ++ e3) ++ e4).length e4.length = true := by
    simp [specStop, h4, perPage]
  rw [hstop4]
  simp [Trace.empty]

/-- Witness for C4 at concrete distinct entries. -/
theorem four_pages_no_total_witness :
    fetch_files
      { page := fun n =>
          if n = 0 then mkListOk pageEntries50a none
          else if n = 1 then mkListOk pageEntries50b none
          else if n = 2 then mkListOk pageEntries50c none
          else mkListOk pageEntries10 none,
        link := fun _ => linkNone, fsget := fun _ => getNone,
        authOk := fun _ => true } sW true 4 Trace.empty =
      (.ok (pageEntries50a ++ pageEntries50b ++ pageEntries50c ++ pageEntries10),
       ⟨[1, 2, 3, 4], 0, 0, 0⟩) :=
  ((four_pages_no_total
    { page := fun n =>
        if n = 0 then mkListOk pageEntries50a none
        else if n = 1 then mkListOk pageEntries50b none
        else if n = 2 then mkListOk pageEntries50c none
        else mkListOk pageEntries10 none,
      link := fun _ => linkNone, fsget := fun _ => getNone,
      authOk := fun _ => true } sW) 0 pageEntries50a pageEntries50b
    pageEntries50c pageEntries10 (by decide) (by decide) (by decide)
    (by decide) rfl rfl rfl rfl).1

/-! ### C8 and C10: entry normalization and URL building -/

/-- Stripping leading slashes leaves a string that does not begin with a
slash. -/
theorem beginsWithSlash_lstripSlash (s : String) :
    beginsWithSlash (lstripSlash s) = false := by
  unfold beginsWithSlash lstripSlash
  induction s.data with
  | nil => rfl
  | cons c t ih =>
    rw [List.dropWhile_cons]
    by_cases hc : (c == '/') = true
    · rw [if_pos hc]
      exact ih
    · rw [if_neg hc]
      simpa using hc

/-- Adding one leading slash does not change the slash-stripped form. -/
theorem lstripSlash_slash_append (p : String) :
    lstripSlash ("/" ++ p) = lstripSlash p := by
  cases p with
  | mk d =>
    unfold lstripSlash
    rw [String.data_append]
    rfl

/-- Stripping leading slashes is idempotent. -/
theorem lstripSlash_idem (p : String) :
    lstripSlash (lstripSlash p) = lstripSlash p := by
  unfold lstripSlash
  exact congrArg String.mk
    (List.dropWhile_idempotent (fun c => c == '/') p.data)

/-- The builder `build_file_url` only depends on the path through its slash-stripped
form: it always slash-prefixes, strips, splits and quotes. -/
theorem build_file_url_via_lstrip (s : Settings) (p : String) :
    build_file_url s p =
      rstripSlash (orElseStr s.public_base_url s.api_base_url) ++ "/" ++
        String.mk (List.intercalate ['/']
          ((splitOnChar '/' (lstripSlash p).data).map pyQuoteL)) := by
  unfold build_file_url
  by_cases hb : beginsWithSlash p = true
  · simp [hb]
  · simp only [Bool.not_eq_true] at hb
    simp [hb, lstripSlash_slash_append]

/-- The join performed by `normalize_entry` (lines 135-136), written
uniformly: `rstrip`ped directory, a slash, then the name (when the
stripped directory is empty this is just the slash-prefixed name). -/
theorem normalize_entry_some (s : Settings) (name : String)
    (modified : Option String) (hn : name ≠ "") :
    normalize_entry s (.obj (some name) modified) =
      some { path := lstripSlash (rstripSlash s.dir_path ++ "/" ++ name)
             source_url := build_file_url s (rstripSlash s.dir_path ++ "/" ++ name)
             title := name
             created_at := modified } := by
  unfold normalize_entry
  have hne : (name == "") = false := by simpa using hn
  by_cases hb : rstripSlash s.dir_path = ""
  · simp only [hne, hb, Bool.false_eq_true, if_false]
    rw [if_neg (by simp)]
    have h0 : ("" : String) ++ "/" ++ name = "/" ++ name := by simp
    rw [h0]
  · simp only [hne, Bool.false_eq_true, if_false]
    rw [if_pos (by simpa using hb)]

/-- C8: for every entry with a (truthy) name, `normalize_entry` joins the
trailing-slash-stripped directory path with the name and builds the source
URL from that joined path via the percent-encoding URL builder
(first conjunct); for `dir_path = "/movies"` and name `"a b.mp4"`, the
record's path is `"movies/a b.mp4"` and the source URL percent-encodes the
space in the final segment (second conjunct, concrete); an entry carrying
no name — or an empty one — yields `none` (third conjunct). -/
theorem normalize_entry_join_and_encode :
    (∀ (s : Settings) (name : String) (modified : Option String),
      name ≠ "" →
      normalize_entry s (.obj (some name) modified) =
        some { path := lstripSlash (rstripSlash s.dir_path ++ "/" ++ name)
               source_url := build_file_url s
                 (rstripSlash s.dir_path ++ "/" ++ name)
               title := name
               created_at := modified }) ∧
    (normalize_entry sW (.obj (some "a b.mp4") none) =
      some { path := "movies/a b.mp4"
             source_url := "http://pb/movies/a%20b.mp4"
             title := "a b.mp4"
             created_at := none }) ∧
    (∀ (s : Settings) (modified : Option String),
      normalize_entry s (.obj none modified) = none ∧
      normalize_entry s (.obj (some "") modified) = none) := by
  refine ⟨normalize_entry_some, by decide, ?_⟩
  intro s modified
  constructor
  · rfl
  · simp [normalize_entry]

/-- Witness for C8's first conjunct at a concrete input. -/
theorem normalize_entry_join_and_encode_witness :
    normalize_entry sW (.obj (some "x y") (some "2024")) =
      some { path := "movies/x y", source_url := "http://pb/movies/x%20y",
             title := "x y", created_at := some "2024" } := by
  rw [normalize_entry_join_and_encode.1 sW "x y" (some "2024") (by decide)]
  decide

/-- C10: every record `normalize_entry` returns has a `path` that does not
begin with a slash (the joined path is `lstrip`ped before being stored),
while its `source_url` is the one built from the slash-prefixed form of
that same path. -/
theorem normalized_path_relative_url_absolute
    (s : Settings) (entry : FsEntry) (r : VideoRecord)
    (h : normalize_entry s entry = some r) :
    beginsWithSlash r.path = false ∧
    r.source_url = build_file_url s ("/" ++ r.path) := by
  have main : ∀ (name : String) (modified : Option String), name ≠ "" →
      r = { path := lstripSlash (rstripSlash s.dir_path ++ "/" ++ name)
            source_url := build_file_url s (rstripSlash s.dir_path ++ "/" ++ name)
            title := name
            created_at := modified } →
      beginsWithSlash r.path = false ∧
      r.source_url = build_file_url s ("/" ++ r.path) := by
    intro name modified hn hr
    subst hr
    refine ⟨beginsWithSlash_lstripSlash _, ?_⟩
    dsimp only
    rw [build_file_url_via_lstrip s (rstripSlash s.dir_path ++ "/" ++ name),
      build_file_url_via_lstrip s ("/" ++ lstripSlash (rstripSlash s.dir_path ++ "/" ++ name)),
      lstripSlash_slash_append, lstripSlash_idem]
  cases entry with
  | str name =>
    by_cases hn : name = ""
    · subst hn
      simp [normalize_entry] at h
    · have hs : normalize_entry s (.str name) =
          normalize_entry s (.obj (some name) none) := rfl
      rw [hs, normalize_entry_some s name none hn] at h
      exact main name none hn (Option.some.inj h).symm
  | obj oname modified =>
    cases oname with
    | none => simp [normalize_entry] at h
    | some name =>
      by_cases hn : name = ""
      · subst hn
        simp [normalize_entry] at h
      · rw [normalize_entry_some s name modified hn] at h
        exact main name modified hn (Option.some.inj h).symm

/-- Witness for C10 at a concrete entry: its record's path does not begin
with a slash, and its source URL is the one built from the slash-prefixed
path. -/
theorem normalized_path_relative_url_absolute_witness :
    beginsWithSlash "movies/a b.mp4" = false ∧
    "http://pb/movies/a%20b.mp4" = build_file_url sW ("/" ++ "movies/a b.mp4") :=
  normalized_path_relative_url_absolute sW (.obj (some "a b.mp4") none)
    { path := "movies/a b.mp4", source_url := "http://pb/movies/a%20b.mp4",
      title := "a b.mp4", created_at := none } (by decide)

/-! ### C2: re-authentication budgets of the resolver -/

/-- Trace `st'` extends `st` by at most `dl` link requests, `dg` fallback
requests and `da` `authenticate()` calls, with no listing requests. -/
def TraceBudget (st st' : Trace) (dl dg da : Nat) : Prop :=
  st'.listCalls = st.listCalls ∧
  st'.linkCalls ≤ st.linkCalls + dl ∧
  st'.getCalls ≤ st.getCalls + dg ∧
  st'.authCalls ≤ st.authCalls + da

theorem TraceBudget.trans {st1 st2 st3 : Trace} {a b c a' b' c' : Nat}
    (h1 : TraceBudget st1 st2 a b c) (h2 : TraceBudget st2 st3 a' b' c') :
    TraceBudget st1 st3 (a + a') (b + b') (c + c') := by
  obtain ⟨e1, l1, g1, x1⟩ := h1
  obtain ⟨e2, l2, g2, x2⟩ := h2
  exact ⟨e2.trans e1, by omega, by omega, by omega⟩

theorem TraceBudget.mono {st st' : Trace} {a b c : Nat} (a' b' c' : Nat)
    (h : TraceBudget st st' a b c) (ha : a ≤ a') (hb : b ≤ b') (hc : c ≤ c') :
    TraceBudget st st' a' b' c' := by
  obtain ⟨e, l, g, x⟩ := h
  exact ⟨e, by omega, by omega, by omega⟩

theorem budget_authenticate (env : Env) (s : Settings) (st : Trace) :
    TraceBudget st (authenticate env s st).2 0 0 1 := by
  rw [authenticate_snd]
  refine ⟨rfl, ?_, ?_, ?_⟩ <;> dsimp only <;> omega

/-- The inner link call makes at most two requests and one auth call
(at most one request and none when the retry budget is spent). -/
theorem budget_call_link_go (env : Env) (s : Settings) :
    ∀ (fuel : Nat) (b : Bool) (st : Trace),
    TraceBudget st (call_link_go env s fuel b st).2
      (if b then 2 else 1) 0 (if b then 1 else 0) := by
  intro fuel
  induction fuel with
  | zero =>
    intro b st
    simp only [call_link_go]
    refine ⟨rfl, ?_, ?_, ?_⟩ <;> omega
  | succ fuel ih =>
    intro b st
    unfold call_link_go
    dsimp only
    split
    · rename_i hcond
      have hb : b = true := by
        rcases Bool.and_eq_true_iff.mp hcond with ⟨h1, _⟩
        exact (Bool.and_eq_true_iff.mp h1).2
      subst hb
      cases hA : authenticate env s { st with linkCalls := st.linkCalls + 1 } with
      | mk res st2 =>
        have hst2 : st2 =
            { st with linkCalls := st.linkCalls + 1,
                      authCalls := st.authCalls + 1 } := by
          have h := authenticate_snd env s { st with linkCalls := st.linkCalls + 1 }
          rw [hA] at h
          simpa using h
        have hstep : TraceBudget st st2 1 0 1 := by
          rw [hst2]
          refine ⟨rfl, ?_, ?_, ?_⟩ <;> dsimp only <;> omega
        cases res with
        | ok u =>
          have := (hstep.trans (ih false st2)).mono 2 0 1
            (by simp) (by simp) (by simp)
          simpa using this
        | error e =>
          simpa using hstep.mono 2 0 1 (by omega) (by omega) (by omega)
    · refine ⟨rfl, ?_, ?_, ?_⟩ <;> dsimp only <;> cases b <;> simp <;> omega

/-- The inner fallback call makes at most two requests and one auth call. -/
theorem budget_call_get_go (env : Env) (s : Settings) :
    ∀ (fuel : Nat) (b : Bool) (st : Trace),
    TraceBudget st (call_get_go env s fuel b st).2
      0 (if b then 2 else 1) (if b then 1 else 0) := by
  intro fuel
  induction fuel with
  | zero =>
    intro b st
    simp only [call_get_go]
    refine ⟨rfl, ?_, ?_, ?_⟩ <;> omega
  | succ fuel ih =>
    intro b st
    unfold call_get_go
    dsimp only
    split
    · rename_i hcond
      have hb : b = true := by
        rcases Bool.and_eq_true_iff.mp hcond with ⟨h1, _⟩
        exact (Bool.and_eq_true_iff.mp h1).2
      subst hb
      cases hA : authenticate env s { st with getCalls := st.getCalls + 1 } with
      | mk res st2 =>
        have hst2 : st2 =
            { st with getCalls := st.getCalls + 1,
                      authCalls := st.authCalls + 1 } := by
          have h := authenticate_snd env s { st with getCalls := st.getCalls + 1 }
          rw [hA] at h
          simpa using h
        have hstep : TraceBudget st st2 0 1 1 := by
          rw [hst2]
          refine ⟨rfl, ?_, ?_, ?_⟩ <;> dsimp only <;> omega
        cases res with
        | ok u =>
          have := (hstep.trans (ih false st2)).mono 0 2 1
            (by simp) (by simp) (by simp)
          simpa using this
        | error e =>
          simpa using hstep.mono 0 2 1 (by omega) (by omega) (by omega)
    · refine ⟨rfl, ?_, ?_, ?_⟩ <;> dsimp only <;> cases b <;> simp <;> omega

/-- The whole API fallback makes at most three `/api/fs/get` requests and
two auth calls. -/
theorem budget_via_api (env : Env) (s : Settings) (st : Trace) :
    TraceBudget st (get_download_url_via_api env s st).2 0 3 2 := by
  unfold get_download_url_via_api
  cases hG : call_get env s true st with
  | mk res st1 =>
    have h1 : TraceBudget st st1 0 2 1 := by
      have h := budget_call_get_go env s 2 true st
      rw [show call_get_go env s 2 true st = call_get env s true st from rfl,
        hG] at h
      simpa using h
    cases res with
    | error e => exact h1.mono 0 3 2 (by omega) (by omega) (by omega)
    | ok resp =>
      dsimp only
      cases hB : resp.body with
      | none => exact h1.mono 0 3 2 (by omega) (by omega) (by omega)
      | some data =>
        dsimp only
        split
        · cases hA : authenticate env s st1 with
          | mk resA st2 =>
            have h2 : TraceBudget st st2 0 2 2 := by
              have h := budget_authenticate env s st1
              rw [hA] at h
              exact (h1.trans (by simpa using h)).mono 0 2 2
                (by omega) (by omega) (by omega)
            cases resA with
            | error e => exact h2.mono 0 3 2 (by omega) (by omega) (by omega)
            | ok u =>
              dsimp only
              cases hG2 : call_get env s false st2 with
              | mk res2 st3 =>
                have h3 : TraceBudget st st3 0 3 2 := by
                  have h := budget_call_get_go env s 2 false st2
                  rw [show call_get_go env s 2 false st2 =
                      call_get env s false st2 from rfl, hG2] at h
                  exact (h2.trans (by simpa using h)).mono 0 3 2
                    (by omega) (by omega) (by omega)
                cases res2 with
                | error e => exact h3
                | ok resp2 =>
                  dsimp only
                  cases hB2 : resp2.body with
                  | none => exact h3
                  | some data2 =>
                    dsimp only
                    unfold api_finish
                    split
                    · exact h3
                    · split <;> [skip; exact h3] <;> split <;> exact h3
        · unfold api_finish
          split
          · exact h1.mono 0 3 2 (by omega) (by omega) (by omega)
          · split
            · split <;> exact h1.mono 0 3 2 (by omega) (by omega) (by omega)
            · exact h1.mono 0 3 2 (by omega) (by omega) (by omega)

/-- Envelope extraction with API fallback stays within the fallback's
budget. -/
theorem budget_envelope_or_api (env : Env) (s : Settings) (data : Json)
    (st : Trace) :
    TraceBudget st (envelope_or_api env s data st).2 0 3 2 := by
  unfold envelope_or_api
  split
  · refine ⟨rfl, ?_, ?_, ?_⟩ <;> dsimp only <;> omega
  · exact budget_via_api env s st

/-- One `get_download_url` call makes at most 3 link requests, 3 fallback
requests and 4 `authenticate()` calls, and never touches the listing
endpoint. -/
theorem budget_get_download_url (env : Env) (s : Settings) (st : Trace) :
    TraceBudget st (get_download_url env s st).2 3 3 4 := by
  unfold get_download_url
  cases hL : call_link env s true st with
  | mk res st1 =>
    have h1 : TraceBudget st st1 2 0 1 := by
      have h := budget_call_link_go env s 2 true st
      rw [show call_link_go env s 2 true st = call_link env s true st from rfl,
        hL] at h
      simpa using h
    cases res with
    | error e => exact h1.mono 3 3 4 (by omega) (by omega) (by omega)
    | ok resp =>
      dsimp only
      cases hR : redirect_location resp with
      | some l => exact h1.mono 3 3 4 (by omega) (by omega) (by omega)
      | none =>
        dsimp only
        split
        · exact (h1.trans (budget_via_api env s st1)).mono 3 3 4
            (by omega) (by omega) (by omega)
        · cases hB : resp.body with
          | none =>
            exact (h1.trans (budget_via_api env s st1)).mono 3 3 4
              (by omega) (by omega) (by omega)
          | some data =>
            dsimp only
            split
            · cases hA : authenticate env s st1 with
              | mk resA st2 =>
                have h2 : TraceBudget st st2 2 0 2 := by
                  have h := budget_authenticate env s st1
                  rw [hA] at h
                  exact (h1.trans (by simpa using h)).mono 2 0 2
                    (by omega) (by omega) (by omega)
                cases resA with
                | error e => exact h2.mono 3 3 4 (by omega) (by omega) (by omega)
                | ok u =>
                  dsimp only
                  cases hL2 : call_link env s false st2 with
                  | mk res2 st3 =>
                    have h3 : TraceBudget st st3 3 0 2 := by
                      have h := budget_call_link_go env s 2 false st2
                      rw [show call_link_go env s 2 false st2 =
                          call_link env s false st2 from rfl, hL2] at h
                      exact (h2.trans (by simpa using h)).mono 3 0 2
                        (by omega) (by omega) (by omega)
                    cases res2 with
                    | error e => exact h3.mono 3 3 4 (by omega) (by omega) (by omega)
                    | ok resp2 =>
                      dsimp only
                      cases hR2 : redirect_location resp2 with
                      | some l => exact h3.mono 3 3 4 (by omega) (by omega) (by omega)
                      | none =>
                        dsimp only
                        cases hB2 : resp2.body with
                        | none =>
                          exact (h3.trans (budget_via_api env s st3)).mono 3 3 4
                            (by omega) (by omega) (by omega)
                        | some data2 =>
                          exact (h3.trans
                            (budget_envelope_or_api env s data2 st3)).mono 3 3 4
                            (by omega) (by omega) (by omega)
            · exact (h1.trans (budget_envelope_or_api env s data st1)).mono 3 3 4
                (by omega) (by omega) (by omega)

/-- A direct-link response with plain HTTP status 401. -/
def link401 : LinkHttp :=
  { status := 401, location := none, contentType := "", body := none }

/-- A `/api/fs/get` response with plain HTTP status 401. -/
def get401status : GetHttp := { status := 401, body := none }

/-- A `/api/fs/get` response with HTTP 200 but JSON `code = 401`. -/
def get401code : GetHttp :=
  { status := 200, body := some (.obj [("code", .int 401)]) }

/-- Environment of the C2 counterexample: the direct link returns HTML (no
authorization failure there), while the fallback endpoint answers HTTP 401,
then HTTP 200 with JSON `code = 401`, then success. -/
def envCE : Env :=
  { page := fun _ => listResp401,
    link := fun _ => linkHtml,
    fsget := fun n => if n = 0 then get401status
             else if n = 1 then get401code else getRaw,
    authOk := fun _ => true }

/-- Environment of the independence scenario: a 401 at the direct-link step
and a 401 at the API-fallback step, each recovered once. -/
def envIndep : Env :=
  { page := fun _ => listResp401,
    link := fun n => if n = 0 then link401 else linkHtml,
    fsget := fun n => if n = 0 then get401status else getRaw,
    authOk := fun _ => true }

/-- C2 counterexample: in one `get_download_url` call, the direct-link
phase completes without any `authenticate()` call (first conjunct: one
link request, zero auth calls, and its HTML response routes to the API
fallback), after which the API-fallback step alone performs TWO
`authenticate()` calls — one for the HTTP-401 response and one for the
JSON `code = 401` response — so a single resolution step re-authenticates
twice, contradicting "each resolution step invokes authenticate() at most
once". -/
theorem resolver_step_double_auth_counterexample :
    call_link envCE sW true Trace.empty = (.ok linkHtml, ⟨[], 1, 0, 0⟩) ∧
    get_download_url_via_api envCE sW ⟨[], 1, 0, 0⟩ =
      (.ok "http://raw", ⟨[], 1, 3, 2⟩) ∧
    get_download_url envCE sW Trace.empty =
      (.ok "http://raw", ⟨[], 1, 3, 2⟩) :=
  ⟨rfl, rfl, rfl⟩

/-- C2 (amended): each of the four authorization-failure checkpoints
(HTTP 401 at the link request, JSON `code` 401 in its body, HTTP 401 at
the fallback request, JSON `code` 401 in its body) triggers at most one
`authenticate()` with one retry of its own request, so re-authentication
never loops: for every environment a `get_download_url` call makes at most
3 link requests, 3 fallback requests and 4 `authenticate()` calls, a
`call_link`/`call_get` phase at most one `authenticate()` each, and the
API fallback at most two (first conjunct).  The budgets are independent
across steps: a 401 consumed at the direct-link step leaves the fallback
step's retry intact (second conjunct: both steps recover once and the
call succeeds). -/
theorem resolver_reauth_bounded_per_checkpoint :
    (∀ (env : Env) (s : Settings) (st : Trace),
      TraceBudget st (call_link env s true st).2 2 0 1 ∧
      TraceBudget st (call_get env s true st).2 0 2 1 ∧
      TraceBudget st (get_download_url_via_api env s st).2 0 3 2 ∧
      TraceBudget st (get_download_url env s st).2 3 3 4) ∧
    get_download_url envIndep sW Trace.empty =
      (.ok "http://raw", ⟨[], 2, 2, 2⟩) := by
  refine ⟨fun env s st => ⟨?_, ?_, budget_via_api env s st,
    budget_get_download_url env s st⟩, rfl⟩
  · simpa using budget_call_link_go env s 2 true st
  · simpa using budget_call_get_go env s 2 true st

end Swiperflix
